import Mathlib

/-
Verification of the reducer-based state containers of the course-notes
repository: the Redux cart slice (src/store/cart-slice.ts, reducers
addToCart and removeFromCart), the timers context reducer
(timers-context.tsx, timersReducer), and the fetch helper
(src/util/http.ts, get).

Modelling choices:
  - JavaScript numbers that only carry data (price, duration) are
    embedded as rationals; the cart quantity, which is created at 1 and
    then only incremented and decremented, is embedded as an integer.
  - The removeFromCart reducer indexes state.items with the result of
    findIndex without a guard; when the id is absent, findIndex yields
    -1, state.items[-1] is undefined, and reading .quantity throws a
    TypeError.  Fallible code is embedded with Option: a thrown
    exception is the value none.
  - The fetch helper's thrown Error is embedded as Except with the
    error message as the String payload.
-/

/-- Line item of the shopping cart (type CartItem in cart-slice.ts). -/
structure CartItem where
  id : String
  title : String
  price : Rat
  quantity : Int
deriving DecidableEq, Repr

/-- State managed by the cart slice (type CartState in cart-slice.ts). -/
structure CartState where
  items : List CartItem
deriving DecidableEq, Repr

/-- Initial cart state: an empty item list. -/
def cartInitialState : CartState := ⟨[]⟩

/-- Reducer addToCart: find the index of the first item whose id equals
the payload id; if found, increment that item's quantity in place;
otherwise push a new item built from the payload with quantity 1. -/
def addToCart (s : CartState) (id title : String) (price : Rat) : CartState :=
  match s.items.findIdx? (fun item => item.id == id) with
  | some itemIndex =>
      { items := List.modify (fun item => { item with quantity := item.quantity + 1 })
          itemIndex s.items }
  | none =>
      { items := s.items ++ [{ id := id, title := title, price := price, quantity := 1 }] }

/-- Reducer removeFromCart: find the index of the first item whose id
equals the payload; read that item's quantity (when the id is absent
findIndex yields -1 and the read of state.items[-1].quantity throws,
embedded as none); if the quantity is 1 splice the item out, otherwise
decrement the quantity. -/
def removeFromCart (s : CartState) (id : String) : Option CartState :=
  match s.items.findIdx? (fun item => item.id == id) with
  | none => none
  | some itemIndex =>
      match s.items[itemIndex]? with
      | none => none
      | some item =>
          if item.quantity == 1 then
            some { items := s.items.eraseIdx itemIndex }
          else
            some { items := List.modify (fun it => ({ it with quantity := it.quantity - 1 })) itemIndex s.items }

/-- Actions of the cart slice (the two declared reducers). -/
inductive CartAction where
  | addItem (id title : String) (price : Rat)
  | removeItem (id : String)
deriving DecidableEq, Repr

/-- The reducer generated by the cart slice, dispatching on the action;
none embeds a thrown exception. -/
def cartReducer (s : CartState) (a : CartAction) : Option CartState :=
  match a with
  | .addItem id title price => some (addToCart s id title price)
  | .removeItem id => removeFromCart s id

/-- Timer record (type Timer in timers-context.tsx). -/
structure Timer where
  name : String
  duration : Rat
deriving DecidableEq, Repr

/-- State of the timers context (type TimersState in timers-context.tsx). -/
structure TimersState where
  isRunning : Bool
  timers : List Timer
deriving DecidableEq, Repr

/-- Initial timers state. -/
def timersInitialState : TimersState := ⟨true, []⟩

/-- Actions reaching timersReducer: the three declared kinds of the
discriminated union, plus a constructor for any other discriminant that
falls through every branch of the if/else chain. -/
inductive TimersAction where
  | startTimers
  | stopTimers
  | addTimer (name : String) (duration : Rat)
  | other (tag : String)
deriving DecidableEq, Repr

/-- timersReducer: START_TIMERS sets isRunning true, STOP_TIMERS sets it
false, ADD_TIMER appends a record built from the payload to the timer
list, and any other action returns the state unchanged. -/
def timersReducer (s : TimersState) (a : TimersAction) : TimersState :=
  match a with
  | .startTimers => { s with isRunning := true }
  | .stopTimers => { s with isRunning := false }
  | .addTimer name duration =>
      { s with timers := s.timers ++ [{ name := name, duration := duration }] }
  | .other _ => s

/-- An HTTP response as the fetch helper observes it: the ok flag and
the body that response.json() produces. -/
structure FetchResponse where
  ok : Bool
  body : String
deriving DecidableEq, Repr

namespace Http

/-- The fetch helper get (src/util/http.ts): when the response is not
ok, throw an Error carrying the message Failed to fetch data.;
otherwise return the parsed body. -/
def get (r : FetchResponse) : Except String String :=
  if !r.ok then Except.error "Failed to fetch data."
  else Except.ok r.body

end Http

/-- Cart states reachable from the initial state by dispatching ADD_ITEM
actions and REMOVE_ITEM actions that complete without throwing. -/
inductive Reachable : CartState → Prop
  | init : Reachable cartInitialState
  | add (s : CartState) (id title : String) (price : Rat) :
      Reachable s → Reachable (addToCart s id title price)
  | remove (s s' : CartState) (id : String) :
      Reachable s → removeFromCart s id = some s' → Reachable s'

/-- A concrete line item used to instantiate theorems. -/
def sampleItem : CartItem := { id := "a", title := "Widget", price := 10, quantity := 1 }

/-- A concrete one-item cart used to instantiate theorems. -/
def sampleCart : CartState := ⟨[sampleItem]⟩

/-- A concrete one-timer state used to instantiate theorems. -/
def sampleTimers : TimersState := ⟨true, [{ name := "t0", duration := 30 }]⟩

/-- Claim C4: for every timers state and every action whose discriminant
is not one of the declared kinds, the reducer returns the input state
unchanged by value. -/
theorem timersReducer_unknown_fallback (s : TimersState) (tag : String) :
    timersReducer s (TimersAction.other tag) = s := rfl

/-- Claim C6: START yields isRunning true with the timer list untouched,
STOP yields isRunning false with the timer list untouched, and START
followed by STOP yields isRunning false with the original timer list. -/
theorem timers_start_stop_frame (s : TimersState) :
    (timersReducer s TimersAction.startTimers).isRunning = true
    ∧ (timersReducer s TimersAction.startTimers).timers = s.timers
    ∧ (timersReducer s TimersAction.stopTimers).isRunning = false
    ∧ (timersReducer s TimersAction.stopTimers).timers = s.timers
    ∧ timersReducer (timersReducer s TimersAction.startTimers) TimersAction.stopTimers
        = { isRunning := false, timers := s.timers } :=
  ⟨rfl, rfl, rfl, rfl, rfl⟩

/-- Claim C7: ADD_TIMER appends exactly the new record as the last
element, keeps every prior entry at its position, and leaves the run
flag equal to the input run flag. -/
theorem timers_addTimer_append (s : TimersState) (name : String) (duration : Rat) :
    timersReducer s (TimersAction.addTimer name duration)
        = { isRunning := s.isRunning,
            timers := s.timers ++ [{ name := name, duration := duration }] }
    ∧ ∀ j, j < s.timers.length →
        (timersReducer s (TimersAction.addTimer name duration)).timers[j]? = s.timers[j]? := by
  refine ⟨rfl, fun j hj => ?_⟩
  simp [timersReducer, List.getElem?_append, hj]

/-- Witness for C7 at a concrete state: appending a timer to a one-timer
state keeps the first entry in place and the run flag unchanged. -/
theorem timers_addTimer_append_witness :
    timersReducer sampleTimers (TimersAction.addTimer "t1" 60)
        = { isRunning := sampleTimers.isRunning,
            timers := sampleTimers.timers ++ [{ name := "t1", duration := 60 }] }
    ∧ (timersReducer sampleTimers (TimersAction.addTimer "t1" 60)).timers[0]?
        = sampleTimers.timers[0]? :=
  ⟨(timers_addTimer_append sampleTimers "t1" 60).1,
   (timers_addTimer_append sampleTimers "t1" 60).2 0 (by decide)⟩

/-- Claim C9: the fetch helper raises exactly when the response is not
ok, the raised error is the single textual message Failed to fetch
data., and on an ok response it returns the body without raising. -/
theorem http_get_spec (r : FetchResponse) :
    ((∃ msg, Http.get r = Except.error msg) ↔ r.ok = false)
    ∧ (∀ msg, Http.get r = Except.error msg → msg = "Failed to fetch data.")
    ∧ (r.ok = true → Http.get r = Except.ok r.body) := by
  cases r with
  | mk ok body =>
    cases ok <;> simp [Http.get]

/-- Witness for C9 at a concrete response: an ok response returns its
body. -/
theorem http_get_spec_witness :
    Http.get { ok := true, body := "data" } = Except.ok "data" :=
  (http_get_spec { ok := true, body := "data" }).2.2 rfl

/-- Helper: an existing item with the searched id makes findIndex
succeed. -/
theorem findIdx_of_mem {l : List CartItem} {id : String}
    (h : ∃ item ∈ l, item.id = id) :
    ∃ i, l.findIdx? (fun item => item.id == id) = some i := by
  obtain ⟨item, hmem, hid⟩ := h
  exact ⟨_, List.findIdx?_eq_some_of_exists ⟨item, hmem, by simpa using hid⟩⟩

/-- Helper: the index found by findIndex carries an item with the
searched id and every earlier index carries a different id. -/
theorem findIdx_first_match {l : List CartItem} {id : String} {i : Nat}
    (h : l.findIdx? (fun item => item.id == id) = some i) :
    ∃ a, l[i]? = some a ∧ a.id = id
      ∧ ∀ j, j < i → ∀ b, l[j]? = some b → b.id ≠ id := by
  rw [List.findIdx?_eq_some_iff_getElem] at h
  obtain ⟨hi, hp, hmin⟩ := h
  refine ⟨l[i], List.getElem?_eq_getElem hi, by simpa using hp, ?_⟩
  intro j hj b hb
  obtain ⟨hjl, hbe⟩ := List.getElem?_eq_some.mp hb
  have hne := hmin j hj
  rw [← hbe]
  simpa using hne

/-- Helper: when no item has the searched id, findIndex fails. -/
theorem findIdx_none_of_absent {l : List CartItem} {id : String}
    (h : ∀ item ∈ l, item.id ≠ id) :
    l.findIdx? (fun item => item.id == id) = none :=
  List.findIdx?_eq_none_iff.mpr (fun x hx => by simpa using h x hx)

/-- Helper: element lookup after an in-place update at one index. -/
theorem getElem?_modify_eq {α : Type} (f : α → α) (i : Nat) (l : List α) (j : Nat) :
    (List.modify f i l)[j]? = if i = j then Option.map f l[j]? else l[j]? := by
  rw [List.getElem?_modify]
  by_cases hij : i = j
  · subst hij
    cases l[i]? <;> simp
  · cases l[j]? <;> simp [hij]

/-- Helper: an in-place update at an in-bounds index is a set with the
updated value. -/
theorem modify_eq_set_of_getElem? {α : Type} (f : α → α) (i : Nat) (l : List α) (a : α)
    (h : l[i]? = some a) : List.modify f i l = l.set i (f a) := by
  apply List.ext_getElem?
  intro n
  rw [getElem?_modify_eq, List.getElem?_set]
  by_cases hin : i = n
  · subst hin
    have hlen : i < l.length := (List.getElem?_eq_some.mp h).1
    simp [h, hlen]
  · simp [hin]

/-- Helper: mapping a field over an in-place update that preserves that
field leaves the mapped list unchanged. -/
theorem map_modify_of_preserved {α β : Type} (g : α → β) (f : α → α)
    (hf : ∀ a, g (f a) = g a) (i : Nat) (l : List α) :
    (List.modify f i l).map g = l.map g := by
  apply List.ext_getElem?
  intro n
  rw [List.getElem?_map, List.getElem?_map, getElem?_modify_eq]
  by_cases hin : i = n
  · subst hin
    cases l[i]? <;> simp [hf]
  · simp [hin]

/-- Helper: mapping commutes with deleting one index. -/
theorem map_eraseIdx_comm {α β : Type} (g : α → β) (l : List α) (i : Nat) :
    (l.eraseIdx i).map g = (l.map g).eraseIdx i := by
  apply List.ext_getElem?
  intro n
  rw [List.getElem?_map, List.getElem?_eraseIdx, List.getElem?_eraseIdx]
  by_cases hn : n < i <;> simp [hn, List.getElem?_map]

/-- Helper: a member of an updated list is an original member or the
image of the element at the updated index. -/
theorem mem_modify {α : Type} {f : α → α} {i : Nat} {l : List α} {x : α}
    (hx : x ∈ List.modify f i l) :
    x ∈ l ∨ ∃ a, l[i]? = some a ∧ a ∈ l ∧ x = f a := by
  rw [List.mem_iff_getElem?] at hx
  obtain ⟨n, hn⟩ := hx
  rw [getElem?_modify_eq] at hn
  by_cases hin : i = n
  · subst hin
    rw [if_pos rfl] at hn
    cases ha : l[i]? with
    | none => rw [ha] at hn; simp at hn
    | some a =>
        rw [ha] at hn
        right
        refine ⟨a, rfl, ?_, ?_⟩
        · exact List.mem_iff_getElem?.mpr ⟨i, ha⟩
        · simpa using hn.symm
  · rw [if_neg hin] at hn
    exact Or.inl (List.mem_iff_getElem?.mpr ⟨n, hn⟩)

/-- Helper: the branch structure of removeFromCart when it completes:
the first matching index and item exist, and the result deletes the
item when its quantity is 1 and decrements it otherwise. -/
theorem removeFromCart_cases {s : CartState} {id : String} {s' : CartState}
    (h : removeFromCart s id = some s') :
    ∃ i a, s.items.findIdx? (fun item => item.id == id) = some i ∧ s.items[i]? = some a
      ∧ ((a.quantity = 1 ∧ s'.items = s.items.eraseIdx i)
        ∨ (a.quantity ≠ 1
            ∧ s'.items
              = List.modify (fun it => ({ it with quantity := it.quantity - 1 })) i s.items)) := by
  cases hfind : s.items.findIdx? (fun item => item.id == id) with
  | none => simp [removeFromCart, hfind] at h
  | some i =>
      cases ha : s.items[i]? with
      | none => simp [removeFromCart, hfind, ha] at h
      | some a =>
          refine ⟨i, a, rfl, ha, ?_⟩
          by_cases hq : a.quantity = 1
          · left
            refine ⟨hq, ?_⟩
            simp [removeFromCart, hfind, ha, hq] at h
            rw [← h]
          · right
            refine ⟨hq, ?_⟩
            simp [removeFromCart, hfind, ha, hq] at h
            rw [← h]

/-- Claim C1: ADD_ITEM with an id already present increments the
quantity of the first item carrying that id, keeping its other fields,
every other item, and all positions unchanged; with a fresh id it
appends a new item with quantity 1 at the end, preserving order. -/
theorem addToCart_spec (s : CartState) (id title : String) (price : Rat) :
    ((∀ item ∈ s.items, item.id ≠ id) →
      (addToCart s id title price).items
        = s.items ++ [{ id := id, title := title, price := price, quantity := 1 }])
    ∧ ((∃ item ∈ s.items, item.id = id) →
      ∃ (i : Nat) (a : CartItem), s.items[i]? = some a ∧ a.id = id
        ∧ (∀ j, j < i → ∀ b : CartItem, s.items[j]? = some b → b.id ≠ id)
        ∧ (addToCart s id title price).items.length = s.items.length
        ∧ (addToCart s id title price).items[i]? = some ({ a with quantity := a.quantity + 1 })
        ∧ ∀ j, j ≠ i → (addToCart s id title price).items[j]? = s.items[j]?) := by
  constructor
  · intro h
    simp [addToCart, findIdx_none_of_absent h]
  · intro h
    obtain ⟨i, hfind⟩ := findIdx_of_mem h
    obtain ⟨a, ha, haid, hmin⟩ := findIdx_first_match hfind
    refine ⟨i, a, ha, haid, hmin, ?_, ?_, ?_⟩
    · simp [addToCart, hfind, List.length_modify]
    · simp [addToCart, hfind, getElem?_modify_eq, ha]
    · intro j hj
      simp [addToCart, hfind, getElem?_modify_eq, Ne.symm hj]

/-- Witness for C1: adding id b to a cart holding only id a appends a
new item, and adding id a again bumps the quantity of the first match
while keeping everything else in place. -/
theorem addToCart_spec_witness :
    (addToCart sampleCart "b" "Gadget" 5).items
        = sampleCart.items ++ [{ id := "b", title := "Gadget", price := 5, quantity := 1 }]
    ∧ ∃ (i : Nat) (a : CartItem), sampleCart.items[i]? = some a ∧ a.id = "a"
        ∧ (∀ j, j < i → ∀ b : CartItem, sampleCart.items[j]? = some b → b.id ≠ "a")
        ∧ (addToCart sampleCart "a" "Widget" 10).items.length = sampleCart.items.length
        ∧ (addToCart sampleCart "a" "Widget" 10).items[i]?
            = some ({ a with quantity := a.quantity + 1 })
        ∧ ∀ j, j ≠ i → (addToCart sampleCart "a" "Widget" 10).items[j]? = sampleCart.items[j]? :=
  ⟨(addToCart_spec sampleCart "b" "Gadget" 5).1 (by decide),
   (addToCart_spec sampleCart "a" "Widget" 10).2 ⟨sampleItem, by simp [sampleCart], rfl⟩⟩

/-- Claim C2: REMOVE_ITEM with an id present in the cart deletes the
first matching item outright when its quantity is 1 and otherwise
replaces it in place with the same item at quantity one lower. -/
theorem removeFromCart_spec (s : CartState) (id : String)
    (h : ∃ item ∈ s.items, item.id = id) :
    ∃ (i : Nat) (a : CartItem), s.items[i]? = some a ∧ a.id = id
      ∧ (∀ j, j < i → ∀ b : CartItem, s.items[j]? = some b → b.id ≠ id)
      ∧ (a.quantity = 1 → removeFromCart s id = some ⟨s.items.eraseIdx i⟩)
      ∧ (a.quantity ≠ 1 → removeFromCart s id
          = some ⟨s.items.set i ({ a with quantity := a.quantity - 1 })⟩) := by
  obtain ⟨i, hfind⟩ := findIdx_of_mem h
  obtain ⟨a, ha, haid, hmin⟩ := findIdx_first_match hfind
  refine ⟨i, a, ha, haid, hmin, ?_, ?_⟩
  · intro hq
    simp [removeFromCart, hfind, ha, hq]
  · intro hq
    rw [← modify_eq_set_of_getElem? (fun it => ({ it with quantity := it.quantity - 1 })) i
      s.items a ha]
    simp [removeFromCart, hfind, ha, hq]

/-- Witness for C2: removing id a from a one-item cart at quantity 1
exercises the deletion branch at a concrete input. -/
theorem removeFromCart_spec_witness :
    ∃ (i : Nat) (a : CartItem), sampleCart.items[i]? = some a ∧ a.id = "a"
      ∧ (∀ j, j < i → ∀ b : CartItem, sampleCart.items[j]? = some b → b.id ≠ "a")
      ∧ (a.quantity = 1 → removeFromCart sampleCart "a" = some ⟨sampleCart.items.eraseIdx i⟩)
      ∧ (a.quantity ≠ 1 → removeFromCart sampleCart "a"
          = some ⟨sampleCart.items.set i ({ a with quantity := a.quantity - 1 })⟩) :=
  removeFromCart_spec sampleCart "a" ⟨sampleItem, by simp [sampleCart], rfl⟩

/-- Claim C10: when REMOVE_ITEM completes, every item before the first
match keeps its position and value; the matched item is either replaced
in place by the same item with quantity one lower (all other positions
unchanged) or deleted, in which case every later item shifts down by
one position with its value intact. -/
theorem removeFromCart_frame (s : CartState) (id : String) (s' : CartState)
    (h : removeFromCart s id = some s') :
    ∃ (i : Nat) (a : CartItem), s.items[i]? = some a ∧ a.id = id
      ∧ (∀ j, j < i → s'.items[j]? = s.items[j]?)
      ∧ ((s'.items.length = s.items.length
            ∧ s'.items[i]? = some ({ a with quantity := a.quantity - 1 })
            ∧ ∀ j, j ≠ i → s'.items[j]? = s.items[j]?)
        ∨ (s'.items.length + 1 = s.items.length
            ∧ ∀ j, i ≤ j → s'.items[j]? = s.items[j + 1]?)) := by
  obtain ⟨i, a, hfind, ha, hcases⟩ := removeFromCart_cases h
  obtain ⟨w, hw, hwid, -⟩ := findIdx_first_match hfind
  have haw : a = w := by
    rw [ha] at hw
    exact Option.some.inj hw
  have haid : a.id = id := haw ▸ hwid
  have hlen : i < s.items.length := (List.getElem?_eq_some.mp ha).1
  refine ⟨i, a, ha, haid, ?_, ?_⟩
  · intro j hj
    rcases hcases with ⟨hq, hitems⟩ | ⟨hq, hitems⟩
    · rw [hitems, List.getElem?_eraseIdx, if_pos hj]
    · rw [hitems, getElem?_modify_eq, if_neg (by omega)]
  · rcases hcases with ⟨hq, hitems⟩ | ⟨hq, hitems⟩
    · right
      constructor
      · rw [hitems, List.length_eraseIdx, if_pos hlen]
        omega
      · intro j hj
        rw [hitems, List.getElem?_eraseIdx, if_neg (by omega)]
    · left
      refine ⟨by rw [hitems, List.length_modify], ?_, ?_⟩
      · rw [hitems, getElem?_modify_eq, if_pos rfl, ha]
        rfl
      · intro j hj
        rw [hitems, getElem?_modify_eq, if_neg (Ne.symm hj)]

/-- Witness for C10: removing id a from the one-item sample cart yields
the empty cart and takes the deletion branch. -/
theorem removeFromCart_frame_witness :
    ∃ (i : Nat) (a : CartItem), sampleCart.items[i]? = some a ∧ a.id = "a"
      ∧ (∀ j, j < i → cartInitialState.items[j]? = sampleCart.items[j]?)
      ∧ ((cartInitialState.items.length = sampleCart.items.length
            ∧ cartInitialState.items[i]? = some ({ a with quantity := a.quantity - 1 })
            ∧ ∀ j, j ≠ i → cartInitialState.items[j]? = sampleCart.items[j]?)
        ∨ (cartInitialState.items.length + 1 = sampleCart.items.length
            ∧ ∀ j, i ≤ j → cartInitialState.items[j]? = sampleCart.items[j + 1]?)) :=
  removeFromCart_frame sampleCart "a" cartInitialState (by rfl)

/-- Claim C3 counterexample: dispatching REMOVE_ITEM for an id absent
from the cart makes the cart reducer read the quantity of an undefined
element and throw, embedded as the reducer returning none. -/
theorem cartReducer_throws_cex :
    cartReducer cartInitialState (CartAction.removeItem "a") = none := rfl

/-- Claim C3 (amended): the cart reducer throws exactly when REMOVE_ITEM
is dispatched for an id no item carries; for every other action, and in
particular for every ADD_ITEM, it completes without throwing. -/
theorem cartReducer_none_iff (s : CartState) (a : CartAction) :
    cartReducer s a = none
      ↔ ∃ id, a = CartAction.removeItem id ∧ ∀ item ∈ s.items, item.id ≠ id := by
  cases a with
  | addItem id title price => simp [cartReducer]
  | removeItem id =>
      simp only [cartReducer]
      constructor
      · intro h
        refine ⟨id, rfl, ?_⟩
        intro item hmem hid
        obtain ⟨i, hfind⟩ := findIdx_of_mem ⟨item, hmem, hid⟩
        obtain ⟨b, hb, _, _⟩ := findIdx_first_match hfind
        by_cases hq : b.quantity = 1 <;> simp [removeFromCart, hfind, hb, hq] at h
      · rintro ⟨id', heq, habs⟩
        injection heq with hid
        subst hid
        simp [removeFromCart, findIdx_none_of_absent habs]

/-- Witness for C3's amended theorem: the reducer throws on removing an
id from the empty cart, and completes on an ADD_ITEM dispatch. -/
theorem cartReducer_none_iff_witness :
    cartReducer cartInitialState (CartAction.removeItem "x") = none
    ∧ cartReducer cartInitialState (CartAction.addItem "x" "Widget" 10) ≠ none :=
  ⟨(cartReducer_none_iff cartInitialState (CartAction.removeItem "x")).mpr
      ⟨"x", rfl, by simp [cartInitialState]⟩,
   fun h => by
      obtain ⟨id, heq, _⟩ :=
        (cartReducer_none_iff cartInitialState (CartAction.addItem "x" "Widget" 10)).mp h
      exact CartAction.noConfusion heq⟩

/-- Claim C5: every cart state reachable from the empty initial state by
ADD_ITEM and completed REMOVE_ITEM transitions has pairwise distinct
item ids, every quantity at least 1, and no item at quantity 0. -/
theorem cart_invariants (s : CartState) (h : Reachable s) :
    (s.items.map CartItem.id).Nodup
    ∧ (∀ item ∈ s.items, 1 ≤ item.quantity)
    ∧ (∀ item ∈ s.items, item.quantity ≠ 0) := by
  have main : (s.items.map CartItem.id).Nodup ∧ ∀ item ∈ s.items, 1 ≤ item.quantity := by
    induction h with
    | init => simp [cartInitialState]
    | add t id title price ht ih =>
        obtain ⟨ihn, ihq⟩ := ih
        cases hfind : t.items.findIdx? (fun item => item.id == id) with
        | some i =>
            have heq : (addToCart t id title price).items
                = List.modify (fun item => ({ item with quantity := item.quantity + 1 }))
                    i t.items := by
              simp [addToCart, hfind]
            constructor
            · rw [heq, map_modify_of_preserved CartItem.id (fun item => ({ item with quantity := item.quantity + 1 })) (fun a => rfl)]
              exact ihn
            · intro x hx
              rw [heq] at hx
              rcases mem_modify hx with hmem | ⟨a, ha, hamem, rfl⟩
              · exact ihq x hmem
              · have := ihq a hamem
                show 1 ≤ a.quantity + 1
                omega
        | none =>
            have heq : (addToCart t id title price).items
                = t.items ++ [{ id := id, title := title, price := price, quantity := 1 }] := by
              simp [addToCart, hfind]
            have habs : ∀ item ∈ t.items, item.id ≠ id := by
              intro item hmem
              have := List.findIdx?_eq_none_iff.mp hfind item hmem
              simpa using this
            constructor
            · rw [heq, List.map_append, List.nodup_append]
              refine ⟨ihn, by simp, ?_⟩
              intro x hx hx2
              simp at hx2
              obtain ⟨item, hmem, hid⟩ := List.mem_map.mp hx
              exact habs item hmem (hid.trans hx2)
            · intro x hx
              rw [heq] at hx
              rcases List.mem_append.mp hx with hmem | hnew
              · exact ihq x hmem
              · simp at hnew
                rw [hnew]
    | remove t t' id ht hrem ih =>
        obtain ⟨ihn, ihq⟩ := ih
        obtain ⟨i, a, hfind, ha, hcases⟩ := removeFromCart_cases hrem
        rcases hcases with ⟨hq, hitems⟩ | ⟨hq, hitems⟩
        · constructor
          · rw [hitems, map_eraseIdx_comm]
            exact List.Nodup.sublist (List.eraseIdx_sublist _ _) ihn
          · intro x hx
            rw [hitems] at hx
            exact ihq x ((List.eraseIdx_sublist _ _).subset hx)
        · constructor
          · rw [hitems, map_modify_of_preserved CartItem.id (fun it => ({ it with quantity := it.quantity - 1 })) (fun a => rfl)]
            exact ihn
          · intro x hx
            rw [hitems] at hx
            rcases mem_modify hx with hmem | ⟨b, hb, hbmem, rfl⟩
            · exact ihq x hmem
            · have hba : b = a := by
                rw [hb] at ha
                exact Option.some.inj ha
              have h1 := ihq b hbmem
              have h2 : b.quantity ≠ 1 := by
                rw [hba]
                exact hq
              show 1 ≤ b.quantity - 1
              omega
  exact ⟨main.1, main.2, fun item hmem => by
    have := main.2 item hmem
    omega⟩

/-- Witness for C5 at a concrete reachable state: the cart obtained by
one ADD_ITEM dispatch from the initial state satisfies the invariants. -/
theorem cart_invariants_witness :
    ((addToCart cartInitialState "a" "Widget" 10).items.map CartItem.id).Nodup
    ∧ (∀ item ∈ (addToCart cartInitialState "a" "Widget" 10).items, 1 ≤ item.quantity)
    ∧ (∀ item ∈ (addToCart cartInitialState "a" "Widget" 10).items, item.quantity ≠ 0) :=
  cart_invariants _ (Reachable.add cartInitialState "a" "Widget" 10 Reachable.init)

/-- Claim C8: across every declared transition of both variants the
surviving elements keep their relative order: ADD_ITEM leaves the id
sequence unchanged or appends the new id last, a completed REMOVE_ITEM
leaves the id sequence unchanged or deletes exactly one position, and
the timer list is only ever left unchanged or extended by one appended
record. -/
theorem order_preservation :
    (∀ (s : CartState) (id title : String) (price : Rat),
      (addToCart s id title price).items.map CartItem.id = s.items.map CartItem.id
      ∨ (addToCart s id title price).items.map CartItem.id = s.items.map CartItem.id ++ [id])
    ∧ (∀ (s s' : CartState) (id : String), removeFromCart s id = some s' →
      s'.items.map CartItem.id = s.items.map CartItem.id
      ∨ ∃ i, s'.items.map CartItem.id = (s.items.map CartItem.id).eraseIdx i)
    ∧ (∀ (t : TimersState) (a : TimersAction),
      (timersReducer t a).timers = t.timers
      ∨ ∃ nt, (timersReducer t a).timers = t.timers ++ [nt]) := by
  refine ⟨?_, ?_, ?_⟩
  · intro s id title price
    cases hfind : s.items.findIdx? (fun item => item.id == id) with
    | some i =>
        left
        have heq : (addToCart s id title price).items
            = List.modify (fun item => ({ item with quantity := item.quantity + 1 }))
                i s.items := by
          simp [addToCart, hfind]
        rw [heq, map_modify_of_preserved CartItem.id (fun item => ({ item with quantity := item.quantity + 1 })) (fun a => rfl)]
    | none =>
        right
        have heq : (addToCart s id title price).items
            = s.items ++ [{ id := id, title := title, price := price, quantity := 1 }] := by
          simp [addToCart, hfind]
        rw [heq, List.map_append]
        rfl
  · intro s s' id h
    obtain ⟨i, a, hfind, ha, hcases⟩ := removeFromCart_cases h
    rcases hcases with ⟨hq, hitems⟩ | ⟨hq, hitems⟩
    · right
      exact ⟨i, by rw [hitems, map_eraseIdx_comm]⟩
    · left
      rw [hitems, map_modify_of_preserved CartItem.id (fun it => ({ it with quantity := it.quantity - 1 })) (fun a => rfl)]
  · intro t a
    cases a with
    | startTimers => exact Or.inl rfl
    | stopTimers => exact Or.inl rfl
    | addTimer name duration => exact Or.inr ⟨{ name := name, duration := duration }, rfl⟩
    | other tag => exact Or.inl rfl

/-- Witness for C8 at a concrete transition: removing the only item of
the sample cart deletes exactly one position of the id sequence. -/
theorem order_preservation_witness :
    cartInitialState.items.map CartItem.id = sampleCart.items.map CartItem.id
    ∨ ∃ i, cartInitialState.items.map CartItem.id
        = (sampleCart.items.map CartItem.id).eraseIdx i :=
  order_preservation.2.1 sampleCart cartInitialState "a" (by rfl)
